import Mathlib

set_option linter.unusedSectionVars false

/-!
Verification of the `r1cs-halo2` repository core (`src/r1cs.rs`).

The repository defines a single halo2 circuit: two advice columns `a`, `b`,
one instance column `c`, one gate `"c-a*b"` with polynomial `c - a*b`
(all queries at the current-row rotation), and a `synthesize` that writes
the witness vector `a` into column `a` and the witness vector `b` into
column `b`, each in its own region at row offsets `0, 1, …`.

The column registry, layouter, and satisfaction checker live in the
`halo2_proofs` dependency and are not part of the repository's sources;
they are modelled here from the specification, with the region-placement
rule pinned down by the repository's own test (`tests::test_r1cs`), which
asserts that checking succeeds with a 3-row instance vector — this forces
the `a`-region and the `b`-region to occupy the same absolute rows.
-/

namespace R1CS

/-- Column kinds: Advice (private witness), Fixed (constants/selectors),
Instance (public values). From the spec's data model §3. -/
inductive ColKind where
  | Advice
  | Fixed
  | Instance
deriving DecidableEq

/-- A column: kind plus allocation index, immutable once created. -/
structure Column where
  kind : ColKind
  index : Nat
deriving DecidableEq

/-- A cell: `(column, absolute row)` — the unit of assignment. -/
structure Cell where
  col : Column
  row : Nat
deriving DecidableEq

/-- Rotation: a row offset relative to the row being evaluated. -/
abbrev Rotation := Int

/-- The current-row rotation, `Rotation::cur()` in the source. -/
def Rotation.cur : Rotation := 0

/-- Polynomial expressions over column queries, the explicit expression
tree for gate polynomials (spec §3, §9). -/
inductive Expr (F : Type) where
  | const (v : F)
  | query (c : Column) (rot : Rotation)
  | add (e₁ e₂ : Expr F)
  | sub (e₁ e₂ : Expr F)
  | mul (e₁ e₂ : Expr F)

/-- A named gate: a list of polynomials that must all vanish. -/
structure Gate (F : Type) where
  name : String
  polys : List (Expr F)

/-- Modelled from the spec: the column registry and gate list held by
halo2's `ConstraintSystem` (not under src/): counters of allocated
columns per kind plus the registered gates (spec §4.1). -/
structure ConstraintSystem (F : Type) where
  num_advice : Nat
  num_fixed : Nat
  num_instance : Nat
  gates : List (Gate F)

/-- Modelled from the spec: the layouter state of halo2's
`SimpleFloorPlanner` (not under src/): the assignment grid, the per-column
row-usage cursors, and the list of allocated regions as
`(start row, row count)` pairs in call order (spec §4.2). -/
structure LayouterState (F : Type) where
  grid : List (Cell × F)
  columns : List (Column × Nat)
  regions : List (Nat × Nat)

/-- Synthesis errors: a cell assigned twice (spec §7). -/
inductive SynthError where
  | assignmentConflict (c : Cell)
deriving DecidableEq

/-- Check modes: fail-fast (`Strict`) or collect-all (`Diagnostic`),
spec §4.4. -/
inductive CheckMode where
  | strict
  | diagnostic
deriving DecidableEq

/-- Result of `check`: success, instance vector too short, first failing
`(gate, row)` pair (Strict), or all failing pairs (Diagnostic). Spec §4.4
and §7. -/
inductive CheckResult (F : Type) where
  | success
  | instanceLengthMismatch (needed got : Nat)
  | constraintNotSatisfied (gate : String) (row : Nat)
  | violationList (vs : List (String × Nat))
deriving DecidableEq

/-- The circuit's configuration, from `R1CSConfig` in `src/r1cs.rs`:
advice columns `a`, `b` and instance column `c`. -/
structure R1CSConfig where
  a : Column
  b : Column
  c : Column
deriving DecidableEq

/-- The chip, from `R1CSChip` in `src/r1cs.rs` (the `PhantomData` marker
carries no information and is dropped). -/
structure R1CSChip where
  config : R1CSConfig

/-- The circuit with its private witness vectors and stored public vector,
from `R1CSCircuit` in `src/r1cs.rs`. -/
structure R1CSCircuit (F : Type) where
  a : List F
  b : List F
  c : List F

variable {F : Type} [Field F] [DecidableEq F]

/-- Modelled from the spec: `ConstraintSystem::advice_column` (halo2, not
under src/) returns a fresh uniquely-indexed Advice column handle. -/
def ConstraintSystem.advice_column (cs : ConstraintSystem F) :
    ConstraintSystem F × Column :=
  ({ cs with num_advice := cs.num_advice + 1 }, ⟨ColKind.Advice, cs.num_advice⟩)

/-- Modelled from the spec: `ConstraintSystem::fixed_column` (halo2, not
under src/) returns a fresh uniquely-indexed Fixed column handle. -/
def ConstraintSystem.fixed_column (cs : ConstraintSystem F) :
    ConstraintSystem F × Column :=
  ({ cs with num_fixed := cs.num_fixed + 1 }, ⟨ColKind.Fixed, cs.num_fixed⟩)

/-- Modelled from the spec: `ConstraintSystem::instance_column` (halo2,
not under src/) returns a fresh uniquely-indexed Instance column handle. -/
def ConstraintSystem.instance_column (cs : ConstraintSystem F) :
    ConstraintSystem F × Column :=
  ({ cs with num_instance := cs.num_instance + 1 },
   ⟨ColKind.Instance, cs.num_instance⟩)

/-- Modelled from the spec: `ConstraintSystem::create_gate` (halo2, not
under src/) stores the polynomial expressions plus the name in the gate
list (spec §4.1). -/
def ConstraintSystem.create_gate (cs : ConstraintSystem F) (name : String)
    (polys : List (Expr F)) : ConstraintSystem F :=
  { cs with gates := cs.gates ++ [⟨name, polys⟩] }

/-- The empty constraint system configuration begins with. -/
def emptyCS : ConstraintSystem F := ⟨0, 0, 0, []⟩

/-- First value associated to a cell in the grid, if any. -/
def lookupCell : List (Cell × F) → Cell → Option F
  | [], _ => none
  | e :: rest, c => if e.1 = c then some e.2 else lookupCell rest c

/-- Row-usage cursor of a column (0 if the column was never used). -/
def colCursor : List (Column × Nat) → Column → Nat
  | [], _ => 0
  | e :: rest, c => if e.1 = c then e.2 else colCursor rest c

/-- Replace (or insert) a column's cursor. -/
def setCursor : List (Column × Nat) → Column → Nat → List (Column × Nat)
  | [], c, v => [(c, v)]
  | e :: rest, c, v => if e.1 = c then (c, v) :: rest else e :: setCursor rest c v

/-- Number of rows a region body spans: one past its largest local
offset (halo2's `RegionShape::row_count`, modelled from the spec). -/
def regionRowCount (body : List (Column × Nat × F)) : Nat :=
  body.foldr (fun e m => max (e.2.1 + 1) m) 0

/-- Modelled from the spec: the region's start row. halo2's
`SingleChipLayouter` (not under src/) places each region at the earliest
row at which none of the columns the region touches is in use — the
placement the repository's test `tests::test_r1cs` observes (its 3-row
instance only checks out when the `a`- and `b`-regions share rows). -/
def regionStart (cols : List (Column × Nat)) (body : List (Column × Nat × F)) : Nat :=
  body.foldr (fun e m => max (colCursor cols e.1) m) 0

/-- Write a list of absolute-cell assignments into the grid, failing with
`assignmentConflict` on the first cell already present (spec §4.2: a cell
may be assigned at most once; re-assignment is an error). -/
def assignCells : List (Cell × F) → List (Cell × F) →
    Except SynthError (List (Cell × F))
  | grid, [] => .ok grid
  | grid, e :: rest =>
    match lookupCell grid e.1 with
    | some _ => .error (.assignmentConflict e.1)
    | none => assignCells (grid ++ [e]) rest

/-- Advance the cursor of every column a region body used. -/
def updateCursors (cols : List (Column × Nat)) (body : List (Column × Nat × F))
    (v : Nat) : List (Column × Nat) :=
  body.foldl (fun cs e => setCursor cs e.1 v) cols

/-- Modelled from the spec: `Layouter::assign_region` (halo2, not under
src/). The body is the list of `(column, local offset, value)`
assignments it makes; the region is placed per `regionStart`, its cells
written with the at-most-once check, the used columns' cursors advanced,
and the region recorded in call order (spec §4.2). -/
def assignRegion (st : LayouterState F) (body : List (Column × Nat × F)) :
    Except SynthError (LayouterState F) :=
  let start := regionStart st.columns body
  let rc := regionRowCount body
  match assignCells st.grid (body.map fun e => (⟨e.1, start + e.2.1⟩, e.2.2)) with
  | .error err => .error err
  | .ok g =>
    .ok ⟨g, updateCursors st.columns body (start + rc),
         st.regions ++ [(start, rc)]⟩

/-- The layouter's initial state: empty grid, no column used, no region. -/
def initState : LayouterState F := ⟨[], [], []⟩

/-- From `R1CSChip::new` in `src/r1cs.rs`. -/
def R1CSChip.new (config : R1CSConfig) : R1CSChip := ⟨config⟩

/-- From `R1CSChip::assign_a` in `src/r1cs.rs`: one region that assigns
`a[i]` to column `config.a` at offset `i` for every `i < a.len()`. -/
def R1CSChip.assign_a (self : R1CSChip) (st : LayouterState F) (a : List F) :
    Except SynthError (LayouterState F) :=
  assignRegion st ((List.range a.length).map fun i => (self.config.a, i, a.getD i 0))

/-- From `R1CSChip::assign_b` in `src/r1cs.rs`: one region that assigns
`b[i]` to column `config.b` at offset `i` for every `i < b.len()`. -/
def R1CSChip.assign_b (self : R1CSChip) (st : LayouterState F) (b : List F) :
    Except SynthError (LayouterState F) :=
  assignRegion st ((List.range b.length).map fun i => (self.config.b, i, b.getD i 0))

/-- From `R1CSCircuit::configure` in `src/r1cs.rs`: allocate advice
columns `a`, `b`, instance column `c`, and register the single gate
`"c-a*b"` whose polynomial is `c - a*b`, all queries at `Rotation::cur`. -/
def R1CSCircuit.configure (meta0 : ConstraintSystem F) :
    ConstraintSystem F × R1CSConfig :=
  let r₁ := meta0.advice_column
  let r₂ := r₁.1.advice_column
  let r₃ := r₂.1.instance_column
  let a := r₁.2
  let b := r₂.2
  let c := r₃.2
  let meta₁ := r₃.1.create_gate "c-a*b"
    [Expr.sub (Expr.query c Rotation.cur)
      (Expr.mul (Expr.query a Rotation.cur) (Expr.query b Rotation.cur))]
  (meta₁, ⟨a, b, c⟩)

/-- From `R1CSCircuit::synthesize` in `src/r1cs.rs`: build the chip and
run `assign_a` on `self.a` then `assign_b` on `self.b`; the stored
`self.c` is never read. -/
def R1CSCircuit.synthesize (self : R1CSCircuit F) (config : R1CSConfig)
    (st : LayouterState F) : Except SynthError (LayouterState F) := do
  let cs := R1CSChip.new config
  let st₁ ← cs.assign_a st self.a
  cs.assign_b st₁ self.b

/-- Grid value of a cell; a cell never assigned reads as the field's
zero (spec §4.4 step 1). -/
def gridVal (grid : List (Cell × F)) (c : Cell) : F :=
  (lookupCell grid c).getD 0

/-- Instance-vector value at a row; a row the vector does not cover reads
as zero. -/
def instVal (inst : List F) (r : Nat) : F :=
  inst.getD r 0

/-- Value a column query takes at an absolute row index: Instance columns
read the instance vector, other columns read the grid; out-of-range
(negative) rows read as zero. -/
def queryVal (grid : List (Cell × F)) (inst : List F) (c : Column)
    (idx : Int) : F :=
  if 0 ≤ idx then
    match c.kind with
    | ColKind.Instance => instVal inst idx.toNat
    | _ => gridVal grid ⟨c, idx.toNat⟩
  else 0

/-- Modelled from the spec: gate-polynomial evaluation of the
satisfaction checker (halo2's `MockProver`, not under src/): substitute
every query `(col, rotation)` by the value at row `r + rotation`
(spec §4.4 step 1). -/
def evalExpr (grid : List (Cell × F)) (inst : List F) (r : Nat) :
    Expr F → F
  | .const v => v
  | .query c rot => queryVal grid inst c ((r : Int) + rot)
  | .add e₁ e₂ => evalExpr grid inst r e₁ + evalExpr grid inst r e₂
  | .sub e₁ e₂ => evalExpr grid inst r e₁ - evalExpr grid inst r e₂
  | .mul e₁ e₂ => evalExpr grid inst r e₁ * evalExpr grid inst r e₂

/-- A gate fails at a row iff one of its polynomials is nonzero there
(field equality is exact, spec §4.4 step 3). -/
def gateFailsAt (grid : List (Cell × F)) (inst : List F) (g : Gate F)
    (r : Nat) : Bool :=
  g.polys.any fun p => decide (evalExpr grid inst r p ≠ 0)

/-- The failing `(gate name, row)` pairs of one row. -/
def rowViolations (gates : List (Gate F)) (grid : List (Cell × F))
    (inst : List F) (r : Nat) : List (String × Nat) :=
  gates.filterMap fun g =>
    if gateFailsAt grid inst g r then some (g.name, r) else none

/-- All violations over a list of rows, row-major. -/
def violationsAux (gates : List (Gate F)) (grid : List (Cell × F))
    (inst : List F) : List Nat → List (String × Nat)
  | [] => []
  | r :: rest =>
    rowViolations gates grid inst r ++ violationsAux gates grid inst rest

/-- All violations over the `n`-row grid (spec §4.4: every gate at every
row). -/
def violations (gates : List (Gate F)) (grid : List (Cell × F))
    (inst : List F) (n : Nat) : List (String × Nat) :=
  violationsAux gates grid inst (List.range n)

/-- Number of assigned witness rows: one past the highest assigned row
(0 for an empty grid). -/
def assignedRows (grid : List (Cell × F)) : Nat :=
  grid.foldr (fun e m => max (e.1.row + 1) m) 0

/-- Modelled from the spec: the satisfaction checker (halo2's
`MockProver::verify`, not under src/). Fails with
`instanceLengthMismatch` when the instance vector is shorter than the
number of assigned witness rows; otherwise evaluates every gate at every
row of the `n`-row grid, reporting the first failing pair in Strict mode
and all of them in Diagnostic mode (spec §4.4, §7). -/
def check (mode : CheckMode) (gates : List (Gate F))
    (grid : List (Cell × F)) (inst : List F) (n : Nat) : CheckResult F :=
  let needed := assignedRows grid
  if inst.length < needed then
    .instanceLengthMismatch needed inst.length
  else
    match violations gates grid inst n with
    | [] => .success
    | v :: vs =>
      match mode with
      | .strict => .constraintNotSatisfied v.1 v.2
      | .diagnostic => .violationList (v :: vs)

/-- Modelled from the spec: the whole pipeline `MockProver::run` plus
checking (not under src/): configure, synthesize from the initial
layouter state, then check the grid against the instance vector over
`2^k` rows. -/
def runAndCheck (mode : CheckMode) (k : Nat) (circ : R1CSCircuit F)
    (inst : List F) : Except SynthError (CheckResult F) :=
  let mc := R1CSCircuit.configure (emptyCS (F := F))
  (circ.synthesize mc.2 initState).map fun st =>
    check mode mc.1.gates st.grid inst (2 ^ k)

/-- The configuration `configure` produces. -/
def theConfig : R1CSConfig := (R1CSCircuit.configure (emptyCS (F := F))).2

/-- The gate list `configure` produces. -/
def theGates : List (Gate F) := (R1CSCircuit.configure (emptyCS (F := F))).1.gates

/-- The advice column holding the witness vector `a`. -/
def colA : Column := ⟨ColKind.Advice, 0⟩

/-- The advice column holding the witness vector `b`. -/
def colB : Column := ⟨ColKind.Advice, 1⟩

/-- The instance column. -/
def colC : Column := ⟨ColKind.Instance, 0⟩

/-- The polynomial of the gate `"c-a*b"`. -/
def thePoly : Expr F :=
  Expr.sub (Expr.query colC Rotation.cur)
    (Expr.mul (Expr.query colA Rotation.cur) (Expr.query colB Rotation.cur))

/-- The grid cells one witness column contributes: value `v[i]` at row
`i` of column `col`. -/
def colGrid (col : Column) (v : List F) : List (Cell × F) :=
  (List.range v.length).map fun i => (⟨col, i⟩, v.getD i 0)

/-- The grid `synthesize` produces on witness vectors `a` and `b`. -/
def gridOf (a b : List F) : List (Cell × F) :=
  colGrid colA a ++ colGrid colB b

/-- Two contiguous row ranges `(start, count)` are disjoint. -/
def rowRangesDisjoint (p q : Nat × Nat) : Prop :=
  p.1 + p.2 ≤ q.1 ∨ q.1 + q.2 ≤ p.1

@[simp]
theorem lookupCell_nil (c : Cell) : lookupCell ([] : List (Cell × F)) c = none :=
  rfl

@[simp]
theorem lookupCell_cons (e : Cell × F) (g : List (Cell × F)) (c : Cell) :
    lookupCell (e :: g) c = if e.1 = c then some e.2 else lookupCell g c :=
  rfl

theorem lookupCell_append (g₁ g₂ : List (Cell × F)) (c : Cell) :
    lookupCell (g₁ ++ g₂) c =
      match lookupCell g₁ c with
      | some v => some v
      | none => lookupCell g₂ c := by
  induction g₁ with
  | nil => simp
  | cons e g₁ ih =>
    by_cases h : e.1 = c <;> simp [h, ih]

theorem lookupCell_eq_none (g : List (Cell × F)) (c : Cell)
    (h : ∀ e ∈ g, e.1 ≠ c) : lookupCell g c = none := by
  induction g with
  | nil => rfl
  | cons e g ih =>
    simp only [lookupCell_cons]
    rw [if_neg (h e (by simp))]
    exact ih fun e' he' => h e' (by simp [he'])

@[simp]
theorem colCursor_nil (c : Column) : colCursor ([] : List (Column × Nat)) c = 0 :=
  rfl

theorem colCursor_setCursor_ne (cols : List (Column × Nat)) (c c' : Column)
    (v : Nat) (h : c' ≠ c) :
    colCursor (setCursor cols c' v) c = colCursor cols c := by
  induction cols with
  | nil => simp [setCursor, colCursor, h]
  | cons e cols ih =>
    by_cases he : e.1 = c'
    · simp [setCursor, he, colCursor, h]
    · simp only [setCursor, if_neg he]
      by_cases hc : e.1 = c <;> simp [colCursor, hc, ih]

theorem colCursor_updateCursors_ne (body : List (Column × Nat × F))
    (cols : List (Column × Nat)) (c : Column) (v : Nat)
    (h : ∀ e ∈ body, e.1 ≠ c) :
    colCursor (updateCursors cols body v) c = colCursor cols c := by
  induction body generalizing cols with
  | nil => rfl
  | cons e body ih =>
    simp only [updateCursors, List.foldl_cons]
    rw [show List.foldl (fun cs e => setCursor cs e.1 v) (setCursor cols e.1 v) body =
        updateCursors (setCursor cols e.1 v) body v from rfl]
    rw [ih (setCursor cols e.1 v) fun e' he' => h e' (by simp [he'])]
    exact colCursor_setCursor_ne cols c e.1 v (h e (by simp))

theorem regionStart_eq_zero (cols : List (Column × Nat))
    (body : List (Column × Nat × F)) (h : ∀ e ∈ body, colCursor cols e.1 = 0) :
    regionStart cols body = 0 := by
  induction body with
  | nil => rfl
  | cons e body ih =>
    simp only [regionStart, List.foldr_cons]
    rw [h e (by simp)]
    rw [show List.foldr (fun e m => max (colCursor cols e.1) m) 0 body =
        regionStart cols body from rfl]
    rw [ih fun e' he' => h e' (by simp [he'])]
    simp

theorem regionRowCount_range (col : Column) (f : Nat → F) (n : Nat) (c₀ : Nat) :
    List.foldr (fun (e : Column × Nat × F) m => max (e.2.1 + 1) m) c₀
      ((List.range n).map fun i => (col, i, f i)) = max n c₀ := by
  induction n generalizing c₀ with
  | zero => simp
  | succ n ih =>
    rw [List.range_succ, List.map_append, List.foldr_append]
    simp only [List.map_cons, List.map_nil, List.foldr_cons, List.foldr_nil]
    rw [ih]
    omega

theorem regionRowCount_colBody (col : Column) (f : Nat → F) (n : Nat) :
    regionRowCount ((List.range n).map fun i => (col, i, f i)) = n := by
  unfold regionRowCount
  rw [regionRowCount_range]
  omega

theorem assignCells_ok (body grid : List (Cell × F))
    (hnew : ∀ e ∈ body, lookupCell grid e.1 = none)
    (hnd : (body.map Prod.fst).Nodup) :
    assignCells grid body = .ok (grid ++ body) := by
  induction body generalizing grid with
  | nil => simp [assignCells]
  | cons e body ih =>
    simp only [assignCells]
    rw [hnew e (by simp)]
    rw [ih (grid ++ [e])]
    · simp
    · intro e' he'
      rw [lookupCell_append]
      rw [hnew e' (by simp [he'])]
      refine lookupCell_eq_none _ _ ?_
      intro x hx
      simp only [List.mem_singleton] at hx
      subst hx
      simp only [List.map_cons, List.nodup_cons] at hnd
      exact fun hcontra => hnd.1 (hcontra ▸ List.mem_map_of_mem Prod.fst he')
    · simp only [List.map_cons, List.nodup_cons] at hnd
      exact hnd.2

theorem mem_colBody (col : Column) (f : Nat → F) (n : Nat)
    (e : Column × Nat × F)
    (he : e ∈ (List.range n).map fun i => (col, i, f i)) :
    e.1 = col ∧ e.2.1 < n := by
  simp only [List.mem_map, List.mem_range] at he
  obtain ⟨i, hi, rfl⟩ := he
  exact ⟨rfl, hi⟩

theorem colGrid_cells_nodup (col : Column) (v : List F) :
    ((colGrid col v).map Prod.fst).Nodup := by
  unfold colGrid
  rw [List.map_map]
  refine List.Nodup.map ?_ (List.nodup_range _)
  intro i j hij
  simpa [Cell.mk.injEq] using hij

theorem lookupCell_colGrid_of_lt (col : Column) (v : List F) (i : Nat)
    (hi : i < v.length) :
    lookupCell (colGrid col v) ⟨col, i⟩ = some (v.getD i 0) := by
  unfold colGrid
  have key : ∀ (n : Nat) (f : Nat → F) (i : Nat), i < n →
      lookupCell ((List.range n).map fun j => (⟨col, j⟩, f j)) ⟨col, i⟩ =
        some (f i) := by
    intro n
    induction n with
    | zero => intro f i hi; omega
    | succ n ih =>
      intro f i hi
      rw [List.range_succ, List.map_append, lookupCell_append]
      rcases Nat.lt_or_ge i n with hn | hn
      · rw [ih f i hn]
      · have hin : i = n := by omega
        subst hin
        rw [lookupCell_eq_none]
        · simp [lookupCell]
        · intro e he
          simp only [List.mem_map, List.mem_range] at he
          obtain ⟨j, hj, rfl⟩ := he
          simp only [ne_eq, Cell.mk.injEq]
          omega
  exact key v.length (fun j => v.getD j 0) i hi

theorem lookupCell_colGrid_of_ne (col : Column) (v : List F) (c : Cell)
    (h : c.col ≠ col ∨ v.length ≤ c.row) :
    lookupCell (colGrid col v) c = none := by
  refine lookupCell_eq_none _ _ ?_
  intro e he
  unfold colGrid at he
  simp only [List.mem_map, List.mem_range] at he
  obtain ⟨i, hi, rfl⟩ := he
  rcases h with h | h
  · intro hc; exact h (by rw [← hc])
  · intro hc
    have : c.row = i := by rw [← hc]
    omega

theorem assignedRows_fold (col : Column) (v : List F) (c₀ : Nat) :
    List.foldr (fun (e : Cell × F) m => max (e.1.row + 1) m) c₀ (colGrid col v) =
      max v.length c₀ := by
  unfold colGrid
  have key : ∀ (n : Nat) (f : Nat → F) (c₀ : Nat),
      List.foldr (fun (e : Cell × F) m => max (e.1.row + 1) m) c₀
        ((List.range n).map fun j => (⟨col, j⟩, f j)) = max n c₀ := by
    intro n
    induction n with
    | zero => intro f c₀; simp
    | succ n ih =>
      intro f c₀
      rw [List.range_succ, List.map_append, List.foldr_append]
      simp only [List.map_cons, List.map_nil, List.foldr_cons, List.foldr_nil]
      rw [ih]
      omega
  exact key v.length (fun j => v.getD j 0) c₀

theorem assignedRows_gridOf (a b : List F) :
    assignedRows (gridOf a b) = max a.length b.length := by
  unfold assignedRows gridOf
  rw [List.foldr_append, assignedRows_fold, assignedRows_fold]
  omega

theorem theConfig_eq : (theConfig (F := F)) = ⟨colA, colB, colC⟩ := rfl

theorem theGates_eq :
    (theGates (F := F)) = [⟨"c-a*b", [thePoly (F := F)]⟩] := rfl

theorem colA_ne_colB : colA ≠ colB := by decide

theorem assignRegion_colBody (st : LayouterState F) (col : Column) (v : List F)
    (hgrid : ∀ e ∈ st.grid, (e : Cell × F).1.col ≠ col)
    (hcur : colCursor st.columns col = 0) :
    ∃ cols',
      assignRegion st ((List.range v.length).map fun i => (col, i, v.getD i 0)) =
        .ok ⟨st.grid ++ colGrid col v, cols', st.regions ++ [(0, v.length)]⟩ ∧
      ∀ c : Column, c ≠ col → colCursor cols' c = colCursor st.columns c := by
  have hstart : regionStart st.columns
      ((List.range v.length).map fun i => (col, i, v.getD i 0)) = 0 := by
    refine regionStart_eq_zero _ _ ?_
    intro e he
    rw [(mem_colBody col _ v.length e he).1]
    exact hcur
  have hrc : regionRowCount
      ((List.range v.length).map fun i => (col, i, v.getD i 0)) = v.length :=
    regionRowCount_colBody col _ v.length
  have hcells : ((List.range v.length).map fun i => (col, i, v.getD i 0)).map
      (fun e => ((⟨e.1, regionStart st.columns
        ((List.range v.length).map fun i => (col, i, v.getD i 0)) + e.2.1⟩ : Cell),
        e.2.2)) = colGrid col v := by
    rw [hstart, List.map_map]
    unfold colGrid
    refine List.map_congr_left ?_
    intro i _
    simp
  have hassign : assignCells st.grid
      (((List.range v.length).map fun i => (col, i, v.getD i 0)).map
        fun e => ((⟨e.1, regionStart st.columns
          ((List.range v.length).map fun i => (col, i, v.getD i 0)) + e.2.1⟩ : Cell),
          e.2.2)) = .ok (st.grid ++ colGrid col v) := by
    rw [hcells]
    refine assignCells_ok _ _ ?_ (colGrid_cells_nodup col v)
    intro e he
    refine lookupCell_eq_none _ _ ?_
    intro x hx
    have hecol : e.1.col = col := by
      unfold colGrid at he
      simp only [List.mem_map, List.mem_range] at he
      obtain ⟨i, _, rfl⟩ := he
      rfl
    intro hxe
    exact hgrid x hx (by rw [hxe, hecol])
  refine ⟨updateCursors st.columns
      ((List.range v.length).map fun i => (col, i, v.getD i 0))
      (regionStart st.columns
        ((List.range v.length).map fun i => (col, i, v.getD i 0)) +
       regionRowCount ((List.range v.length).map fun i => (col, i, v.getD i 0))),
    ?_, ?_⟩
  · simp only [assignRegion]
    rw [hassign]
    rw [hstart, hrc]
  · intro c hc
    refine colCursor_updateCursors_ne _ _ _ _ ?_
    intro e he
    rw [(mem_colBody col _ v.length e he).1]
    exact fun h => hc h.symm

theorem synthesize_ok (circ : R1CSCircuit F) :
    ∃ cols, circ.synthesize (theConfig (F := F)) initState =
      .ok ⟨gridOf circ.a circ.b, cols,
           [(0, circ.a.length), (0, circ.b.length)]⟩ := by
  obtain ⟨cols₁, h₁, hc₁⟩ :=
    assignRegion_colBody (initState (F := F)) colA circ.a
      (by intro e he; simp [initState] at he) rfl
  simp only [initState, List.nil_append] at h₁
  obtain ⟨cols₂, h₂, _⟩ :=
    assignRegion_colBody
      (⟨colGrid colA circ.a, cols₁, [(0, circ.a.length)]⟩ : LayouterState F)
      colB circ.b
      (by
        intro e he
        have := (by
          unfold colGrid at he
          simp only [List.mem_map, List.mem_range] at he
          obtain ⟨i, _, rfl⟩ := he
          rfl : e.1.col = colA)
        rw [this]
        exact colA_ne_colB)
      (by rw [hc₁ colB (fun h => colA_ne_colB h.symm)]; rfl)
  refine ⟨cols₂, ?_⟩
  simp only [R1CSCircuit.synthesize, R1CSChip.new, R1CSChip.assign_a,
    R1CSChip.assign_b, theConfig_eq, bind, Except.bind, initState]
  rw [h₁]
  exact h₂

theorem gridVal_gridOf_colA_lt (a b : List F) (i : Nat) (hi : i < a.length) :
    gridVal (gridOf a b) ⟨colA, i⟩ = a.getD i 0 := by
  unfold gridVal gridOf
  rw [lookupCell_append, lookupCell_colGrid_of_lt colA a i hi]
  rfl

theorem gridVal_gridOf_colB_lt (a b : List F) (i : Nat) (hi : i < b.length) :
    gridVal (gridOf a b) ⟨colB, i⟩ = b.getD i 0 := by
  unfold gridVal gridOf
  rw [lookupCell_append,
    lookupCell_colGrid_of_ne colA a ⟨colB, i⟩ (Or.inl (fun h => colA_ne_colB h.symm)),
    lookupCell_colGrid_of_lt colB b i hi]
  rfl

theorem gridVal_gridOf_colA_ge (a b : List F) (r : Nat) (h : a.length ≤ r) :
    gridVal (gridOf a b) ⟨colA, r⟩ = 0 := by
  unfold gridVal gridOf
  rw [lookupCell_append, lookupCell_colGrid_of_ne colA a ⟨colA, r⟩ (Or.inr h),
    lookupCell_colGrid_of_ne colB b ⟨colA, r⟩ (Or.inl colA_ne_colB)]
  rfl

theorem gridVal_gridOf_colB_ge (a b : List F) (r : Nat) (h : b.length ≤ r) :
    gridVal (gridOf a b) ⟨colB, r⟩ = 0 := by
  unfold gridVal gridOf
  rw [lookupCell_append,
    lookupCell_colGrid_of_ne colA a ⟨colB, r⟩ (Or.inl (fun hc => colA_ne_colB hc.symm)),
    lookupCell_colGrid_of_ne colB b ⟨colB, r⟩ (Or.inr h)]
  rfl

theorem instVal_ge (inst : List F) (r : Nat) (h : inst.length ≤ r) :
    instVal inst r = 0 :=
  List.getD_eq_default inst 0 h

theorem evalExpr_thePoly (grid : List (Cell × F)) (inst : List F) (r : Nat) :
    evalExpr grid inst r (thePoly (F := F)) =
      instVal inst r - gridVal grid ⟨colA, r⟩ * gridVal grid ⟨colB, r⟩ := by
  simp [evalExpr, thePoly, queryVal, Rotation.cur, colA, colB, colC]

theorem evalGate_zero_of_ge (a b inst : List F) (r : Nat)
    (h₁ : max a.length b.length ≤ r) (h₂ : inst.length ≤ r) :
    evalExpr (gridOf a b) inst r (thePoly (F := F)) = 0 := by
  rw [evalExpr_thePoly, instVal_ge inst r h₂,
    gridVal_gridOf_colA_ge a b r (by omega),
    gridVal_gridOf_colB_ge a b r (by omega)]
  ring

theorem rowViolations_theGates (grid : List (Cell × F)) (inst : List F)
    (r : Nat) :
    rowViolations (theGates (F := F)) grid inst r =
      if evalExpr grid inst r (thePoly (F := F)) = 0 then []
      else [("c-a*b", r)] := by
  simp only [theGates_eq, rowViolations, List.filterMap_cons, List.filterMap_nil,
    gateFailsAt, List.any_cons, List.any_nil, Bool.or_false]
  by_cases h : evalExpr grid inst r (thePoly (F := F)) = 0 <;> simp [h]

theorem violationsAux_eq_nil (gates : List (Gate F)) (grid : List (Cell × F))
    (inst : List F) (l : List Nat) :
    violationsAux gates grid inst l = [] ↔
      ∀ r ∈ l, rowViolations gates grid inst r = [] := by
  induction l with
  | nil => simp [violationsAux]
  | cons r l ih => simp [violationsAux, ih]

theorem violations_eq_nil (grid : List (Cell × F)) (inst : List F) (n : Nat)
    (h : ∀ r < n, evalExpr grid inst r (thePoly (F := F)) = 0) :
    violations (theGates (F := F)) grid inst n = [] := by
  unfold violations
  rw [violationsAux_eq_nil]
  intro r hr
  rw [rowViolations_theGates, if_pos (h r (List.mem_range.mp hr))]

theorem runAndCheck_eq_check (mode : CheckMode) (k : Nat) (circ : R1CSCircuit F)
    (inst : List F) :
    runAndCheck mode k circ inst =
      .ok (check mode (theGates (F := F)) (gridOf circ.a circ.b) inst (2 ^ k)) := by
  obtain ⟨cols, h⟩ := synthesize_ok circ
  simp only [runAndCheck]
  simp only [theConfig] at h
  rw [h]
  rfl

theorem check_eq_success (mode : CheckMode) (gates : List (Gate F))
    (grid : List (Cell × F)) (inst : List F) (n : Nat)
    (h₁ : assignedRows grid ≤ inst.length)
    (h₂ : violations gates grid inst n = []) :
    check mode gates grid inst n = .success := by
  simp only [check]
  rw [if_neg (by omega), h₂]

theorem check_eq_violationList (gates : List (Gate F))
    (grid : List (Cell × F)) (inst : List F) (n : Nat)
    (v : String × Nat) (vs : List (String × Nat))
    (h₁ : assignedRows grid ≤ inst.length)
    (h₂ : violations gates grid inst n = v :: vs) :
    check .diagnostic gates grid inst n = .violationList (v :: vs) := by
  simp only [check]
  rw [if_neg (by omega), h₂]

theorem check_eq_mismatch (mode : CheckMode) (gates : List (Gate F))
    (grid : List (Cell × F)) (inst : List F) (n : Nat)
    (h : inst.length < assignedRows grid) :
    check mode gates grid inst n =
      .instanceLengthMismatch (assignedRows grid) inst.length := by
  simp only [check]
  rw [if_pos h]

/-- C1: for every field pair `(a, b)`, synthesizing the circuit with
witness vectors `a = [a]`, `b = [b]` and checking it in Strict mode
against the instance vector `[a*b]` returns success: the gate `"c-a*b"`
evaluates to zero at every checked row of the `2^k`-row grid. -/
theorem C1_strict_success (k : Nat) (a b : F) :
    runAndCheck .strict k (⟨[a], [b], [a * b]⟩ : R1CSCircuit F) [a * b] =
      .ok .success := by
  rw [runAndCheck_eq_check]
  refine congrArg Except.ok (check_eq_success _ _ _ _ _ ?_ ?_)
  · rw [assignedRows_gridOf]; simp
  · refine violations_eq_nil _ _ _ ?_
    intro r _
    rcases Nat.eq_zero_or_pos r with h0 | hpos
    · subst h0
      rw [evalExpr_thePoly, gridVal_gridOf_colA_lt [a] [b] 0 (by simp),
        gridVal_gridOf_colB_lt [a] [b] 0 (by simp)]
      show a * b - a * b = 0
      ring
    · exact evalGate_zero_of_ge [a] [b] [a * b] r (by simpa using hpos)
        (by simpa using hpos)

/-- C4: for every field triple `(a, b, c)` with `c ≠ a*b`, synthesizing
with witness `a = [a]`, `b = [b]` and checking against instance `[c]` in
Diagnostic mode returns exactly one violation, naming the gate `"c-a*b"`
and row 0 — the row where the mismatched pair was assigned — and no other
`(gate, row)` pair. -/
theorem C4_diagnostic_single_violation (k : Nat) (a b c : F)
    (h : c ≠ a * b) :
    runAndCheck .diagnostic k (⟨[a], [b], [c]⟩ : R1CSCircuit F) [c] =
      .ok (.violationList [("c-a*b", 0)]) := by
  rw [runAndCheck_eq_check]
  refine congrArg Except.ok (check_eq_violationList _ _ _ _ ("c-a*b", 0) [] ?_ ?_)
  · rw [assignedRows_gridOf]; simp
  · have hpow : 2 ^ k = (2 ^ k - 1) + 1 :=
      (Nat.succ_pred_eq_of_pos (Nat.pos_pow_of_pos k (by norm_num))).symm
    unfold violations
    rw [hpow, List.range_succ_eq_map]
    have htail : violationsAux (theGates (F := F)) (gridOf [a] [b]) [c]
        (List.map Nat.succ (List.range (2 ^ k - 1))) = [] := by
      rw [violationsAux_eq_nil]
      intro r hr
      simp only [List.mem_map] at hr
      obtain ⟨j, _, rfl⟩ := hr
      rw [rowViolations_theGates, if_pos]
      exact evalGate_zero_of_ge [a] [b] [c] (Nat.succ j) (by simp) (by simp)
    simp only [violationsAux]
    rw [htail, List.append_nil, rowViolations_theGates, if_neg]
    rw [evalExpr_thePoly, gridVal_gridOf_colA_lt [a] [b] 0 (by simp),
      gridVal_gridOf_colB_lt [a] [b] 0 (by simp)]
    show ¬(c - a * b = 0)
    exact sub_ne_zero.mpr h

/-- C5: synthesizing with the test vectors `a = [5,4,3]`, `b = [3,4,10]`
and checking against the instance vector `[15,16,30]` over the
`2^4`-row grid succeeds in both modes: the gate `"c-a*b"` is satisfied at
the three assigned rows and at every other row. -/
theorem C5_test_vectors_success :
    runAndCheck .strict 4
        (⟨[5, 4, 3], [3, 4, 10], [15, 16, 30]⟩ : R1CSCircuit F)
        [15, 16, 30] = .ok .success ∧
    runAndCheck .diagnostic 4
        (⟨[5, 4, 3], [3, 4, 10], [15, 16, 30]⟩ : R1CSCircuit F)
        [15, 16, 30] = .ok .success := by
  have hv : violations (theGates (F := F))
      (gridOf [5, 4, 3] [3, 4, 10]) [15, 16, 30] (2 ^ 4) = [] := by
    refine violations_eq_nil _ _ _ ?_
    intro r _
    rcases Nat.lt_or_ge r 3 with h3 | h3
    · interval_cases r
      · rw [evalExpr_thePoly,
          gridVal_gridOf_colA_lt [5, 4, 3] [3, 4, 10] 0 (by norm_num),
          gridVal_gridOf_colB_lt [5, 4, 3] [3, 4, 10] 0 (by norm_num)]
        show (15 : F) - 5 * 3 = 0
        norm_num
      · rw [evalExpr_thePoly,
          gridVal_gridOf_colA_lt [5, 4, 3] [3, 4, 10] 1 (by norm_num),
          gridVal_gridOf_colB_lt [5, 4, 3] [3, 4, 10] 1 (by norm_num)]
        show (16 : F) - 4 * 4 = 0
        norm_num
      · rw [evalExpr_thePoly,
          gridVal_gridOf_colA_lt [5, 4, 3] [3, 4, 10] 2 (by norm_num),
          gridVal_gridOf_colB_lt [5, 4, 3] [3, 4, 10] 2 (by norm_num)]
        show (30 : F) - 3 * 10 = 0
        norm_num
    · exact evalGate_zero_of_ge [5, 4, 3] [3, 4, 10] [15, 16, 30] r
        (by simpa using h3) (by simpa using h3)
  constructor <;>
    · rw [runAndCheck_eq_check]
      refine congrArg Except.ok (check_eq_success _ _ _ _ _ ?_ hv)
      rw [assignedRows_gridOf]; simp

/-- C2: after `synthesize` runs on witness vectors `a` and `b` of equal
length, every index `i` below that length has `a[i]` assigned to the
Advice-A column and `b[i]` to the Advice-B column at the same absolute
row `i` (both regions start at row 0, so the absolute row equals the
offset `i` within each region), and the two regions each span the whole
vector. -/
theorem C2_row_alignment (a b c : List F) (h : a.length = b.length)
    (i : Nat) (hi : i < a.length) :
    ∃ st, R1CSCircuit.synthesize (⟨a, b, c⟩ : R1CSCircuit F)
        (theConfig (F := F)) initState = .ok st ∧
      gridVal st.grid ⟨(theConfig (F := F)).a, i⟩ = a.getD i 0 ∧
      gridVal st.grid ⟨(theConfig (F := F)).b, i⟩ = b.getD i 0 ∧
      st.regions = [(0, a.length), (0, b.length)] := by
  obtain ⟨cols, hs⟩ := synthesize_ok (⟨a, b, c⟩ : R1CSCircuit F)
  refine ⟨_, hs, ?_, ?_, rfl⟩
  · rw [theConfig_eq]
    exact gridVal_gridOf_colA_lt a b i hi
  · rw [theConfig_eq]
    exact gridVal_gridOf_colB_lt a b i (h ▸ hi)

/-- C6: for every pair of witness vectors, `synthesize` assigns each
`(column, row)` cell at most once, so it never aborts with a
re-assignment error: it returns a grid holding exactly column A at rows
`0..a.length` and column B at rows `0..b.length`. -/
theorem C6_no_assignment_conflict (a b c : List F) :
    ∃ st, R1CSCircuit.synthesize (⟨a, b, c⟩ : R1CSCircuit F)
        (theConfig (F := F)) initState = .ok st ∧ st.grid = gridOf a b := by
  obtain ⟨cols, hs⟩ := synthesize_ok (⟨a, b, c⟩ : R1CSCircuit F)
  exact ⟨_, hs, rfl⟩

/-- C7: whenever the supplied instance vector is shorter than the number
of assigned witness rows, `check` fails with `instanceLengthMismatch` in
either mode, rather than succeeding or reporting a constraint
violation. -/
theorem C7_instance_length_mismatch (mode : CheckMode) (k : Nat)
    (a b c inst : List F) (h : inst.length < max a.length b.length) :
    runAndCheck mode k (⟨a, b, c⟩ : R1CSCircuit F) inst =
      .ok (.instanceLengthMismatch (max a.length b.length) inst.length) := by
  rw [runAndCheck_eq_check]
  refine congrArg Except.ok ?_
  rw [check_eq_mismatch mode _ _ _ _ (by rw [assignedRows_gridOf]; exact h),
    assignedRows_gridOf]

/-- C8: a column query referring to a cell never assigned reads as the
field's zero: at any row at or beyond both witness vectors and the
instance vector, the Advice-A and Advice-B cells and the instance value
all read zero, and the gate `"c-a*b"` evaluates to `0 - 0*0 = 0`. -/
theorem C8_unassigned_reads_zero (a b c inst : List F) (r : Nat)
    (h₁ : max a.length b.length ≤ r) (h₂ : inst.length ≤ r) :
    ∃ st, R1CSCircuit.synthesize (⟨a, b, c⟩ : R1CSCircuit F)
        (theConfig (F := F)) initState = .ok st ∧
      gridVal st.grid ⟨colA, r⟩ = 0 ∧
      gridVal st.grid ⟨colB, r⟩ = 0 ∧
      instVal inst r = 0 ∧
      evalExpr st.grid inst r (thePoly (F := F)) = 0 := by
  obtain ⟨cols, hs⟩ := synthesize_ok (⟨a, b, c⟩ : R1CSCircuit F)
  exact ⟨_, hs, gridVal_gridOf_colA_ge a b r (by omega),
    gridVal_gridOf_colB_ge a b r (by omega), instVal_ge inst r h₂,
    evalGate_zero_of_ge a b inst r h₁ h₂⟩

/-- C9: the grid `synthesize` produces does not depend on the circuit's
stored public-value field `c`: two circuits with equal witness vectors
but different `c` synthesize identically. -/
theorem C9_synthesize_ignores_c (config : R1CSConfig) (st : LayouterState F)
    (a b c c' : List F) :
    R1CSCircuit.synthesize (⟨a, b, c⟩ : R1CSCircuit F) config st =
      R1CSCircuit.synthesize (⟨a, b, c'⟩ : R1CSCircuit F) config st := rfl

/-- C10: `configure` registers exactly two Advice columns, one Instance
column, no Fixed (selector) column, and exactly one gate named
`"c-a*b"` whose polynomial is `c - a*b` with all three queries at the
current-row rotation. -/
theorem C10_configure_registers :
    (R1CSCircuit.configure (emptyCS (F := F))).1.num_advice = 2 ∧
    (R1CSCircuit.configure (emptyCS (F := F))).1.num_fixed = 0 ∧
    (R1CSCircuit.configure (emptyCS (F := F))).1.num_instance = 1 ∧
    (R1CSCircuit.configure (emptyCS (F := F))).1.gates =
      [⟨"c-a*b", [Expr.sub (Expr.query ⟨ColKind.Instance, 0⟩ Rotation.cur)
        (Expr.mul (Expr.query ⟨ColKind.Advice, 0⟩ Rotation.cur)
          (Expr.query ⟨ColKind.Advice, 1⟩ Rotation.cur))]⟩] ∧
    (R1CSCircuit.configure (emptyCS (F := F))).2 =
      ⟨⟨ColKind.Advice, 0⟩, ⟨ColKind.Advice, 1⟩, ⟨ColKind.Instance, 0⟩⟩ :=
  ⟨rfl, rfl, rfl, rfl, rfl⟩

instance : Fact (Nat.Prime 5) := ⟨by norm_num⟩

/-- C3 counterexample: on the concrete input `a = [1]`, `b = [2]` over
`ZMod 5`, `synthesize` makes two `assign_region` calls and the layouter
gives both regions the absolute row range starting at row 0 with one row
— the row ranges of the two distinct regions are not disjoint. -/
theorem C3_counterexample :
    Except.map LayouterState.regions
        (R1CSCircuit.synthesize (⟨[1], [2], [2]⟩ : R1CSCircuit (ZMod 5))
          (theConfig (F := ZMod 5)) initState) = .ok [(0, 1), (0, 1)] ∧
    ¬ rowRangesDisjoint (0, 1) (0, 1) := by
  constructor
  · obtain ⟨cols, hs⟩ :=
      synthesize_ok (⟨[1], [2], [2]⟩ : R1CSCircuit (ZMod 5))
    rw [hs]
    rfl
  · unfold rowRangesDisjoint
    omega

/-- C3 (amended): regions are allocated in call order, but the layouter
keeps a per-column cursor and places each region at the earliest row at
which none of its columns is in use; distinct regions never share a
`(column, row)` cell, while their absolute row ranges may coincide when
their column sets are disjoint — here both regions start at row 0. -/
theorem C3_regions_share_rows_not_cells (a b c : List F) :
    ∃ st, R1CSCircuit.synthesize (⟨a, b, c⟩ : R1CSCircuit F)
        (theConfig (F := F)) initState = .ok st ∧
      st.regions = [(0, a.length), (0, b.length)] ∧
      (st.grid.map Prod.fst).Nodup := by
  obtain ⟨cols, hs⟩ := synthesize_ok (⟨a, b, c⟩ : R1CSCircuit F)
  refine ⟨_, hs, rfl, ?_⟩
  show ((gridOf a b).map Prod.fst).Nodup
  unfold gridOf
  rw [List.map_append]
  refine List.Nodup.append (colGrid_cells_nodup colA a)
    (colGrid_cells_nodup colB b) ?_
  intro x hx₁ hx₂
  unfold colGrid at hx₁ hx₂
  rw [List.map_map] at hx₁ hx₂
  simp only [List.mem_map, List.mem_range, Function.comp] at hx₁ hx₂
  obtain ⟨i, _, rfl⟩ := hx₁
  obtain ⟨j, _, hj⟩ := hx₂
  exact colA_ne_colB (congrArg Cell.col hj.symm)

/-- Witness for C2 at the concrete input `a = [1,2]`, `b = [3,4]`,
`i = 1` over `ZMod 5`. -/
theorem C2_row_alignment_witness :
    (([1, 2] : List (ZMod 5)).length = ([3, 4] : List (ZMod 5)).length) ∧
    1 < ([1, 2] : List (ZMod 5)).length ∧
    ∃ st, R1CSCircuit.synthesize (⟨[1, 2], [3, 4], []⟩ : R1CSCircuit (ZMod 5))
        (theConfig (F := ZMod 5)) initState = .ok st ∧
      gridVal st.grid ⟨(theConfig (F := ZMod 5)).a, 1⟩ =
        ([1, 2] : List (ZMod 5)).getD 1 0 ∧
      gridVal st.grid ⟨(theConfig (F := ZMod 5)).b, 1⟩ =
        ([3, 4] : List (ZMod 5)).getD 1 0 ∧
      st.regions = [(0, ([1, 2] : List (ZMod 5)).length),
                    (0, ([3, 4] : List (ZMod 5)).length)] :=
  ⟨rfl, by norm_num, C2_row_alignment [1, 2] [3, 4] [] rfl 1 (by norm_num)⟩

/-- Witness for C4 at the concrete input `a = 1`, `b = 1`, `c = 2` over
`ZMod 5` (`2 ≠ 1*1`), with `k = 1`. -/
theorem C4_diagnostic_single_violation_witness :
    ((2 : ZMod 5) ≠ 1 * 1) ∧
    runAndCheck .diagnostic 1 (⟨[1], [1], [2]⟩ : R1CSCircuit (ZMod 5)) [2] =
      .ok (.violationList [("c-a*b", 0)]) :=
  ⟨by decide, C4_diagnostic_single_violation 1 1 1 2 (by decide)⟩

/-- Witness for C7 at the concrete input `a = [1]`, `b = [1]`,
`inst = []` over `ZMod 5`, Strict mode, `k = 1`. -/
theorem C7_instance_length_mismatch_witness :
    (([] : List (ZMod 5)).length <
      max ([1] : List (ZMod 5)).length ([1] : List (ZMod 5)).length) ∧
    runAndCheck .strict 1 (⟨[1], [1], []⟩ : R1CSCircuit (ZMod 5)) [] =
      .ok (.instanceLengthMismatch
        (max ([1] : List (ZMod 5)).length ([1] : List (ZMod 5)).length)
        ([] : List (ZMod 5)).length) :=
  ⟨by norm_num, C7_instance_length_mismatch .strict 1 [1] [1] [] [] (by norm_num)⟩

/-- Witness for C8 at the concrete input `a = [1]`, `b = []`,
`inst = [1]`, row `r = 1` over `ZMod 5`. -/
theorem C8_unassigned_reads_zero_witness :
    (max ([1] : List (ZMod 5)).length ([] : List (ZMod 5)).length ≤ 1) ∧
    (([1] : List (ZMod 5)).length ≤ 1) ∧
    ∃ st, R1CSCircuit.synthesize (⟨[1], [], []⟩ : R1CSCircuit (ZMod 5))
        (theConfig (F := ZMod 5)) initState = .ok st ∧
      gridVal st.grid ⟨colA, 1⟩ = 0 ∧
      gridVal st.grid ⟨colB, 1⟩ = 0 ∧
      instVal [(1 : ZMod 5)] 1 = 0 ∧
      evalExpr st.grid [(1 : ZMod 5)] 1 (thePoly (F := ZMod 5)) = 0 :=
  ⟨by norm_num, by norm_num,
    C8_unassigned_reads_zero [1] [] [] [1] 1 (by norm_num) (by norm_num)⟩

end R1CS
